import Mathlib

/-!
Verification of the xdevs-rs DEVS simulation engine core.

The definitions below are a shallow embedding of the Rust sources:
  * `src/simulation.rs`       — the `Simulator` trait, its blanket impl for
    atomic models, its impl for `Coupled`, and `RootCoordinator`;
  * `src/modeling/port.rs`    — `Port<T>` and `PortInterface::propagate`;
  * `xdevs/src/modeling/coupled.rs`   — `Coupled::add_eic/add_ic/add_eoc`;
  * `xdevs/src/modeling/component.rs` — `Component::inject`;
  * `xdevs/src/simulation/rt/input.rs` — `InputQueue::inject_timeout`;
  * `xdevs/src/gpt/processor.rs`      — the `Processor` atomic model;
  * `src/devstone.rs`, `src/devstone/li.rs` — the DEVStone LI benchmark.

Simulation times are `f64` in the source. The engine treats them opaquely:
it only adds, subtracts, compares (`==`, `>=`, `<`), and takes minima of
them, and `+∞` ("never") is a distinguished value.  The simulator is
therefore embedded parametrically over a time type `T` together with a
record `TimeOps T` of those operations, exactly the interface the Rust code
uses on `f64`.  For concrete runs and witnesses, `T` is instantiated with
`DTime` — integers extended with infinity — on which every simulation time
of the verified scenarios is represented exactly.  The simulator's recursion
over the component tree is bounded by an explicit depth parameter; at any
bound exceeding the height of the tree it coincides with the unbounded
recursion of the source.
-/

namespace XDevs

/-- The operations the engine performs on `f64` simulation times:
addition, subtraction, `<=`, `<`, `==`, and the literals `0.0` and
`f64::INFINITY`. -/
structure TimeOps (T : Type) where
  add : T → T → T
  sub : T → T → T
  ble : T → T → Bool
  blt : T → T → Bool
  beq : T → T → Bool
  zero : T
  never : T

/-- Binary minimum of simulation times (what `min_by(total_cmp)` computes on
the embedded values). -/
def tmin {T : Type} (ops : TimeOps T) (a b : T) : T :=
  if ops.ble a b then a else b

/-- Minimum of a list of simulation times: this is
`iter.min_by(|a, b| a.total_cmp(b)).unwrap_or(f64::INFINITY)` value-wise. -/
def listMin {T : Type} (ops : TimeOps T) (l : List T) : T :=
  l.foldr (tmin ops) ops.never

/-- Concrete simulation time: a finite integer instant or `+∞`
(`f64::INFINITY`). All times arising in the verified scenarios are integral,
so `f64` arithmetic on them is exact and agrees with this model. -/
inductive DTime where
  | fin (z : ℤ)
  | inf
deriving DecidableEq

namespace DTime

/-- Addition of simulation times (`f64` addition; `+∞` absorbs). -/
def add : DTime → DTime → DTime
  | fin a, fin b => fin (a + b)
  | _, _ => inf

/-- Subtraction of simulation times. The engine only ever subtracts a finite
`t_last` from a finite current time `t`; the `inf` cases are unreachable and
mapped to `inf`. -/
def sub : DTime → DTime → DTime
  | fin a, fin b => fin (a - b)
  | _, _ => inf

/-- Boolean order on simulation times (`f64` `<=`). -/
def ble : DTime → DTime → Bool
  | fin a, fin b => a ≤ b
  | _, inf => true
  | inf, fin _ => false

/-- Boolean strict order on simulation times (`f64` `<`). -/
def blt : DTime → DTime → Bool
  | fin a, fin b => a < b
  | inf, _ => false
  | fin _, inf => true

/-- Boolean equality of simulation times (`f64` `==`). -/
def beq (a b : DTime) : Bool := a = b

/-- The `TimeOps` instance for `DTime`. -/
def ops : TimeOps DTime :=
  { add := add, sub := sub, ble := ble, blt := blt, beq := beq,
    zero := fin 0, never := inf }

theorem ble_total (a b : DTime) : ble a b = true ∨ ble b a = true := by
  cases a <;> cases b <;> simp [ble]
  exact le_total _ _

theorem blt_iff_not_ble (a b : DTime) : blt a b = true ↔ ble b a = false := by
  cases a <;> cases b <;> simp [blt, ble]

end DTime

/-- Message bags. A port's bag is a list of values; a component's port set is
a list of bags, indexed by insertion order (the serialized `in_ports` /
`out_ports` vectors). -/
abbrev Bags (V : Type) := List (List V)

/-- Applies `f` to the element at index `i`; out-of-range indices leave the
list unchanged (couplings built by the source always carry valid indices). -/
def modifyAt {α : Type} : List α → Nat → (α → α) → List α
  | [], _, _ => []
  | a :: as, 0, f => f a :: as
  | a :: as, n + 1, f => a :: modifyAt as n f

/-- Reads the bag at index `i` (empty for an out-of-range index). -/
def getBag {V : Type} (bags : Bags V) (i : Nat) : List V := bags.getD i []

/-- Appends values to the bag at index `i` (a `Port::add_values` /
`propagate` write). -/
def bagAppendAt {V : Type} (bags : Bags V) (i : Nat) (vs : List V) : Bags V :=
  modifyAt bags i (fun b => b ++ vs)

/-- Empties every bag (`Component::clear_input` / `clear_output`). -/
def clearBags {V : Type} (bags : Bags V) : Bags V := bags.map (fun _ => [])

/-- Checks that every bag is empty (`Component::is_input_empty`). -/
def allEmpty {V : Type} (bags : Bags V) : Bool := bags.all List.isEmpty

theorem modifyAt_length {α : Type} (l : List α) (i : Nat) (f : α → α) :
    (modifyAt l i f).length = l.length := by
  induction l generalizing i with
  | nil => rfl
  | cons a as ih => cases i <;> simp [modifyAt, ih]

theorem getD_modifyAt_self {α : Type} (l : List α) (i : Nat) (f : α → α) (d : α)
    (h : i < l.length) : (modifyAt l i f).getD i d = f (l.getD i d) := by
  induction l generalizing i with
  | nil => simp at h
  | cons a as ih =>
    cases i with
    | zero => simp [modifyAt]
    | succ n =>
      simp only [modifyAt, List.getD_cons_succ]
      exact ih n (by simpa using h)

theorem getD_modifyAt_ne {α : Type} (l : List α) (i j : Nat) (f : α → α) (d : α)
    (h : j ≠ i) : (modifyAt l i f).getD j d = l.getD j d := by
  induction l generalizing i j with
  | nil => rfl
  | cons a as ih =>
    cases i with
    | zero => cases j with
      | zero => exact absurd rfl h
      | succ m => simp [modifyAt]
    | succ n => cases j with
      | zero => simp [modifyAt]
      | succ m =>
        simp only [modifyAt, List.getD_cons_succ]
        exact ih n m (fun hc => h (by rw [hc]))

theorem getElem?_modifyAt_self {α : Type} (l : List α) (i : Nat) (f : α → α) :
    (modifyAt l i f)[i]? = (l[i]?).map f := by
  induction l generalizing i with
  | nil => rfl
  | cons a as ih => cases i <;> simp [modifyAt, ih]

theorem getElem?_modifyAt_ne {α : Type} (l : List α) (i j : Nat) (f : α → α)
    (h : j ≠ i) : (modifyAt l i f)[j]? = l[j]? := by
  induction l generalizing i j with
  | nil => rfl
  | cons a as ih =>
    cases i with
    | zero => cases j with
      | zero => exact absurd rfl h
      | succ m => simp [modifyAt]
    | succ n => cases j with
      | zero => simp [modifyAt]
      | succ m =>
        simp only [modifyAt, List.getElem?_cons_succ]
        exact ih n m (fun hc => h (by rw [hc]))

/-- Behaviour of an atomic DEVS model (the `Atomic` trait of
`src/modeling/atomic.rs`): state type `S`, messages of type `V`.  `deltaExt`
and `deltaConf` receive the input-port bags (the Rust functions read them
through `self`); `lambda` maps the current output-port bags to the bags after
the call (the Rust `lambda` appends to them through `self`). -/
structure AtomicBeh (T V S : Type) where
  deltaInt : S → S
  deltaExt : S → T → Bags V → S
  deltaConf : S → Bags V → S
  lambda : S → Bags V → Bags V
  ta : S → T

/-- Default confluent transition of the `Atomic` trait
(`src/modeling/atomic.rs`, `delta_conf`): `delta_int()` followed by
`delta_ext(0.0)` on the state `delta_int` produced. -/
def defaultDeltaConf {T V S : Type} (zero : T) (deltaInt : S → S)
    (deltaExt : S → T → Bags V → S) : S → Bags V → S :=
  fun s inB => deltaExt (deltaInt s) zero inB

/-- Endpoint of a coupling, relative to the coupled model that owns it: one
of the parent's own ports or a port of the `c`-th subcomponent, identified by
its index in the serialized port vector. This is the pure counterpart of the
`Arc<dyn Port>` handles stored in `eics` / `ics` / `eocs`
(`xdevs/src/modeling/coupled.rs`). -/
inductive Endpoint where
  | selfIn (p : Nat)
  | selfOut (p : Nat)
  | childIn (c p : Nat)
  | childOut (c p : Nat)
deriving DecidableEq

/-- A node of the simulation hierarchy: either an atomic model (behaviour,
state, and its `Component` data) or a `Coupled` (its `Component` data, the
serialized subcomponent vector and the three serialized coupling vectors).
Couplings are stored as `(destination, source)` pairs, mirroring
`eics.push((p_to, p_from))`. -/
inductive Node (T V S : Type) where
  | atomic (beh : AtomicBeh T V S) (s : S) (tLast tNext : T)
      (inBags outBags : Bags V)
  | coupled (tLast tNext : T) (inBags outBags : Bags V)
      (children : List (Node T V S)) (eics ics eocs : List (Endpoint × Endpoint))

namespace Node

variable {T V S : Type}

/-- `Component::get_t_last`. -/
def tLast : Node T V S → T
  | atomic _ _ tL _ _ _ => tL
  | coupled tL _ _ _ _ _ _ _ => tL

/-- `Component::get_t_next`. -/
def tNext : Node T V S → T
  | atomic _ _ _ tN _ _ => tN
  | coupled _ tN _ _ _ _ _ _ => tN

/-- Input-port bags of the node's component. -/
def inBags : Node T V S → Bags V
  | atomic _ _ _ _ inB _ => inB
  | coupled _ _ inB _ _ _ _ _ => inB

/-- Output-port bags of the node's component. -/
def outBags : Node T V S → Bags V
  | atomic _ _ _ _ _ outB => outB
  | coupled _ _ _ outB _ _ _ _ => outB

/-- Subcomponents (empty for an atomic). -/
def children : Node T V S → List (Node T V S)
  | atomic _ _ _ _ _ _ => []
  | coupled _ _ _ _ cs _ _ _ => cs

/-- Appends values to the node's `p`-th input bag. -/
def appendInBag (n : Node T V S) (p : Nat) (vs : List V) : Node T V S :=
  match n with
  | atomic beh s tL tN inB outB => atomic beh s tL tN (bagAppendAt inB p vs) outB
  | coupled tL tN inB outB cs eics ics eocs =>
      coupled tL tN (bagAppendAt inB p vs) outB cs eics ics eocs

/-- Appends values to the node's `p`-th output bag. -/
def appendOutBag (n : Node T V S) (p : Nat) (vs : List V) : Node T V S :=
  match n with
  | atomic beh s tL tN inB outB => atomic beh s tL tN inB (bagAppendAt outB p vs)
  | coupled tL tN inB outB cs eics ics eocs =>
      coupled tL tN inB (bagAppendAt outB p vs) cs eics ics eocs

end Node

/-- Working state of a coupled model while it routes couplings: its own input
bags, its own output bags, and its subcomponents. -/
abbrev RouteSt (T V S : Type) := Bags V × Bags V × List (Node T V S)

/-- Reads the bag behind an endpoint. -/
def readEndpoint {T V S : Type} (st : RouteSt T V S) : Endpoint → List V
  | .selfIn p => getBag st.1 p
  | .selfOut p => getBag st.2.1 p
  | .childIn c p =>
      match st.2.2[c]? with
      | some n => getBag n.inBags p
      | none => []
  | .childOut c p =>
      match st.2.2[c]? with
      | some n => getBag n.outBags p
      | none => []

/-- Appends values to the bag behind an endpoint. -/
def writeEndpoint {T V S : Type} (st : RouteSt T V S) (e : Endpoint)
    (vs : List V) : RouteSt T V S :=
  match e with
  | .selfIn p => (bagAppendAt st.1 p vs, st.2.1, st.2.2)
  | .selfOut p => (st.1, bagAppendAt st.2.1 p vs, st.2.2)
  | .childIn c p => (st.1, st.2.1, modifyAt st.2.2 c (fun n => n.appendInBag p vs))
  | .childOut c p => (st.1, st.2.1, modifyAt st.2.2 c (fun n => n.appendOutBag p vs))

/-- Routes one coupling `(dst, src)`: `port_from.propagate(&**port_to)` in
`src/simulation.rs` appends the whole bag of the source port `port_from`
(second tuple slot) onto the end of the destination port `port_to`'s bag
(first tuple slot). -/
def routeOne {T V S : Type} (st : RouteSt T V S) (coup : Endpoint × Endpoint) :
    RouteSt T V S :=
  writeEndpoint st coup.1 (readEndpoint st coup.2)

/-- Routes a serialized coupling vector in order. -/
def routeAll {T V S : Type} (st : RouteSt T V S)
    (coups : List (Endpoint × Endpoint)) : RouteSt T V S :=
  coups.foldl routeOne st

namespace Node

variable {T V S : Type}

/-- `Simulator::start` (`src/simulation.rs`).  Atomic: `t_next = t_start +
ta()`, stored and returned (the default `Atomic::start` hook is a no-op).
Coupled: starts every subcomponent and stores the minimum of the returned
`t_next` values (`+∞` for an empty coupled), with `t_last = t_start`. The
first argument bounds the recursion depth. -/
def start (ops : TimeOps T) : Nat → T → Node T V S → Node T V S
  | 0, _, n => n
  | _ + 1, tStart, atomic beh s _ _ inB outB =>
      atomic beh s tStart (ops.add tStart (beh.ta s)) inB outB
  | k + 1, tStart, coupled _ _ inB outB cs eics ics eocs =>
      let cs1 := cs.map (start ops k tStart)
      coupled tStart (listMin ops (cs1.map tNext)) inB outB cs1 eics ics eocs

/-- `Simulator::collection` (`src/simulation.rs`). Atomic: if `t >= t_next`,
call `lambda`. Coupled: if `t >= t_next`, recurse into every subcomponent,
then route the EOCs, then the ICs. The first argument bounds the recursion
depth. -/
def collection (ops : TimeOps T) : Nat → T → Node T V S → Node T V S
  | 0, _, n => n
  | _ + 1, t, atomic beh s tL tN inB outB =>
      if ops.ble tN t then atomic beh s tL tN inB (beh.lambda s outB)
      else atomic beh s tL tN inB outB
  | k + 1, t, coupled tL tN inB outB cs eics ics eocs =>
      if ops.ble tN t then
        let cs1 := cs.map (collection ops k t)
        let st1 := routeAll (inB, outB, cs1) eocs
        let st2 := routeAll st1 ics
        coupled tL tN st2.1 st2.2.1 st2.2.2 eics ics eocs
      else coupled tL tN inB outB cs eics ics eocs

/-- `Simulator::transition` (`src/simulation.rs`). Atomic: dispatches between
`delta_conf`, `delta_ext`, `delta_int`, or no transition, clears the consumed
bags, and sets `t_last = t`, `t_next = t + ta()` on the post-transition
state. Coupled: routes the EICs and clears its input when the input is
non-empty, clears its output when `t >= t_next`, and recurses into the
subcomponents in either case, storing the minimum of their new `t_next`
values. The first argument bounds the recursion depth. -/
def transition (ops : TimeOps T) : Nat → T → Node T V S → Node T V S
  | 0, _, n => n
  | _ + 1, t, atomic beh s tL tN inB outB =>
      if allEmpty inB then
        if ops.beq t tN then
          let s1 := beh.deltaInt s
          atomic beh s1 t (ops.add t (beh.ta s1)) inB (clearBags outB)
        else atomic beh s tL tN inB outB
      else
        if ops.beq t tN then
          let s1 := beh.deltaConf s inB
          atomic beh s1 t (ops.add t (beh.ta s1)) (clearBags inB) (clearBags outB)
        else
          let s1 := beh.deltaExt s (ops.sub t tL) inB
          atomic beh s1 t (ops.add t (beh.ta s1)) (clearBags inB) outB
  | k + 1, t, coupled tL tN inB outB cs eics ics eocs =>
      let isExternal := !allEmpty inB
      let st1 :=
        if isExternal then
          let st := routeAll (inB, outB, cs) eics
          (clearBags st.1, st.2.1, st.2.2)
        else (inB, outB, cs)
      let isInternal := ops.ble tN t
      let outB2 := if isInternal then clearBags st1.2.1 else st1.2.1
      if isExternal || isInternal then
        let cs2 := st1.2.2.map (transition ops k t)
        coupled t (listMin ops (cs2.map tNext)) st1.1 outB2 cs2 eics ics eocs
      else coupled tL tN st1.1 outB2 st1.2.2 eics ics eocs

end Node

/-- One pass of the `RootCoordinator::simulate` loop
(`src/simulation.rs`): while `t_next < t_stop`, run `collection(t_next)` then
`transition(t_next)` and read off the new `t_next`. The first argument
bounds the number of loop iterations, the second the recursion depth. -/
def simLoop {T V S : Type} (ops : TimeOps T) :
    Nat → Nat → T → Node T V S → Node T V S
  | 0, _, _, n => n
  | i + 1, depth, tStop, n =>
      if ops.blt n.tNext tStop then
        simLoop ops i depth tStop (Node.transition ops depth n.tNext
          (Node.collection ops depth n.tNext n))
      else n

/-- `RootCoordinator::simulate(t_stop)`: `start(0.)` followed by the
collection/transition loop (the final `stop` call only runs the lifecycle
hooks and is omitted — the DEVStone hooks merely publish counters that this
embedding keeps in the model state). -/
def simulate {T V S : Type} (ops : TimeOps T) (iters depth : Nat) (tStop : T)
    (n : Node T V S) : Node T V S :=
  simLoop ops iters depth tStop (Node.start ops depth ops.zero n)

/-- One iteration body of `RootCoordinator::simulate_rt`
(`src/simulation.rs`) after `wait_event` has returned the virtual time `t`:
if `t >= t_next_internal`, run `collection(t)` (plus the external output
handler, which does not touch the model) and then `transition(t)`; otherwise,
if the root input is empty, `continue` without touching anything; otherwise
run `transition(t)` alone. Returns the model, the pending next internal
event time, and two Booleans recording whether `collection` respectively
`transition` were invoked in this iteration. -/
def rtIteration {T V S : Type} (ops : TimeOps T) (depth : Nat) (n : Node T V S)
    (tNextInternal t : T) : Node T V S × T × Bool × Bool :=
  if ops.ble tNextInternal t then
    let n1 := Node.collection ops depth t n
    let n2 := Node.transition ops depth t n1
    (n2, n2.tNext, true, true)
  else if allEmpty n.inBags then
    (n, tNextInternal, false, false)
  else
    let n2 := Node.transition ops depth t n
    (n2, n2.tNext, false, true)

/-! Type-erased ports (`src/modeling/port.rs`).  A `Port<T>` is embedded as a
bag of values together with a tag standing for the Rust element type `T`;
`Port::<T>::upgrade` succeeds exactly when the tags coincide. -/

/-- A `Port<T>` facing the type-erased `PortInterface`: `tag` stands for the
element type `T`, `values` for the `RefCell<Vec<T>>` bag. -/
structure TaggedPort (V : Type) where
  tag : Nat
  values : List V
deriving DecidableEq

namespace TaggedPort

variable {V : Type}

/-- `PortInterface::is_compatible`: true iff the element types match. -/
def isCompatible (a b : TaggedPort V) : Bool := a.tag == b.tag

/-- `PortInterface::propagate` (`src/modeling/port.rs`): extends the
receiver's bag with the values of `portFrom`; `none` models the panic of
`Port::<T>::upgrade` when the element types differ. -/
def propagate (dst portFrom : TaggedPort V) : Option (TaggedPort V) :=
  if dst.tag = portFrom.tag then
    some { dst with values := dst.values ++ portFrom.values }
  else none

end TaggedPort

/-! Construction-time coupled model (`xdevs/src/modeling/coupled.rs`): the
data `add_eic` / `add_ic` / `add_eoc` read and write. -/

/-- A port as seen by the construction API: its name and its element type
(as a tag). -/
structure CPort where
  name : String
  tag : Nat
deriving DecidableEq

/-- The port directories of a `Component` used when resolving couplings. -/
structure CComponent where
  name : String
  inPorts : List CPort
  outPorts : List CPort
deriving DecidableEq

/-- `Component::get_in_port`. -/
def CComponent.getInPort (c : CComponent) (port : String) : Option CPort :=
  c.inPorts.find? (fun p => p.name == port)

/-- `Component::get_out_port`. -/
def CComponent.getOutPort (c : CComponent) (port : String) : Option CPort :=
  c.outPorts.find? (fun p => p.name == port)

/-- Identity of a resolved port handle (the `Arc<dyn Port>` pushed onto the
serialized coupling vectors): owning component, port name, element type. -/
structure PortRef where
  comp : String
  port : String
  tag : Nat
deriving DecidableEq

/-- A string-keyed map of string sets, embedding the
`HashMap<String, HashMap<String, usize>>` deduplication tables (only key
membership matters to the claims). -/
abbrev KeyMap := List (String × List String)

/-- Keys present under `k`. -/
def mapGet (m : KeyMap) (k : String) : List String :=
  ((m.find? (fun e => e.1 == k)).map (fun e => e.2)).getD []

/-- Inserts `v` under `k` (`entry(k).or_default()` followed by `insert`). -/
def mapAdd : KeyMap → String → String → KeyMap
  | [], k, v => [(k, [v])]
  | (k1, vs) :: rest, k, v =>
      if k1 = k then (k1, vs ++ [v]) :: rest else (k1, vs) :: mapAdd rest k v

/-- The construction-time state of a `Coupled`: its own component, its
subcomponents' components, the three deduplication maps, and the three
serialized coupling vectors. -/
structure CoupledB where
  component : CComponent
  comps : List CComponent
  eicMap : KeyMap
  icMap : KeyMap
  eocMap : KeyMap
  eics : List (PortRef × PortRef)
  ics : List (PortRef × PortRef)
  eocs : List (PortRef × PortRef)
deriving DecidableEq

/-- The three panics of the add-coupling methods. -/
inductive AddCouplingErr where
  | unresolved
  | incompatible
  | duplicate
deriving DecidableEq

/-- `Coupled::get_component` by name. -/
def CoupledB.getComponent (b : CoupledB) (name : String) : Option CComponent :=
  b.comps.find? (fun c => c.name == name)

/-- `Coupled::add_eic` (`xdevs/src/modeling/coupled.rs`): resolve the parent
input port and the child input port, check compatibility, reject when the
source key is already present under the destination key, and push
`(p_to, p_from)` onto `eics`. -/
def CoupledB.addEic (b : CoupledB) (portFrom compTo portTo : String) :
    Except AddCouplingErr CoupledB :=
  match b.component.getInPort portFrom with
  | none => .error .unresolved
  | some pFrom =>
    match b.getComponent compTo with
    | none => .error .unresolved
    | some comp =>
      match comp.getInPort portTo with
      | none => .error .unresolved
      | some pTo =>
        if pFrom.tag ≠ pTo.tag then .error .incompatible
        else
          let sourceKey := portFrom
          let destinationKey := compTo ++ "-" ++ portTo
          if sourceKey ∈ mapGet b.eicMap destinationKey then .error .duplicate
          else .ok { b with
            eicMap := mapAdd b.eicMap destinationKey sourceKey,
            eics := b.eics ++
              [(⟨compTo, portTo, pTo.tag⟩, ⟨b.component.name, portFrom, pFrom.tag⟩)] }

/-- `Coupled::add_ic` (`xdevs/src/modeling/coupled.rs`). -/
def CoupledB.addIc (b : CoupledB) (compFrom portFrom compTo portTo : String) :
    Except AddCouplingErr CoupledB :=
  match b.getComponent compFrom with
  | none => .error .unresolved
  | some cFrom =>
    match cFrom.getOutPort portFrom with
    | none => .error .unresolved
    | some pFrom =>
      match b.getComponent compTo with
      | none => .error .unresolved
      | some cTo =>
        match cTo.getInPort portTo with
        | none => .error .unresolved
        | some pTo =>
          if pFrom.tag ≠ pTo.tag then .error .incompatible
          else
            let sourceKey := compFrom ++ "-" ++ portFrom
            let destinationKey := compTo ++ "-" ++ portTo
            if sourceKey ∈ mapGet b.icMap destinationKey then .error .duplicate
            else .ok { b with
              icMap := mapAdd b.icMap destinationKey sourceKey,
              ics := b.ics ++
                [(⟨compTo, portTo, pTo.tag⟩, ⟨compFrom, portFrom, pFrom.tag⟩)] }

/-- `Coupled::add_eoc` (`xdevs/src/modeling/coupled.rs`). -/
def CoupledB.addEoc (b : CoupledB) (compFrom portFrom portTo : String) :
    Except AddCouplingErr CoupledB :=
  match b.getComponent compFrom with
  | none => .error .unresolved
  | some cFrom =>
    match cFrom.getOutPort portFrom with
    | none => .error .unresolved
    | some pFrom =>
      match b.component.getOutPort portTo with
      | none => .error .unresolved
      | some pTo =>
        if pFrom.tag ≠ pTo.tag then .error .incompatible
        else
          let sourceKey := compFrom ++ "-" ++ portFrom
          let destinationKey := portTo
          if sourceKey ∈ mapGet b.eocMap destinationKey then .error .duplicate
          else .ok { b with
            eocMap := mapAdd b.eocMap destinationKey sourceKey,
            eocs := b.eocs ++
              [(⟨b.component.name, portTo, pTo.tag⟩, ⟨compFrom, portFrom, pFrom.tag⟩)] }

/-! Event injection (`xdevs/src/modeling/component.rs` and
`xdevs/src/simulation/rt/input.rs`). -/

/-- The two run-time injection errors of `Component::inject`. -/
inductive ComponentError where
  | UnknownPort
  | ValueParseError
deriving DecidableEq

/-- An input port as seen by the injection interface. `parse` models the
port's `Port::inject` value parsing. Modelled from the spec: `Port::inject`
itself is not under `src/`; per the spec, injection locates the input port
by name and appends a parsed value, the parsing layer being external. -/
structure RtInPort (V : Type) where
  name : String
  parse : String → Option V
  bag : List V

/-- Locates the named port in the serialized input-port vector and appends
the parsed value to its bag. -/
def injectPorts {V : Type} (portName value : String) :
    List (RtInPort V) → Except ComponentError (List (RtInPort V))
  | [] => .error .UnknownPort
  | p :: rest =>
      if p.name = portName then
        match p.parse value with
        | none => .error .ValueParseError
        | some v => .ok ({ p with bag := p.bag ++ [v] } :: rest)
      else
        (injectPorts portName value rest).map (fun rs => p :: rs)

/-- The input-port directory of a component, as used by `Component::inject`. -/
structure RtComponent (V : Type) where
  inPorts : List (RtInPort V)

/-- `Component::inject` (`xdevs/src/modeling/component.rs`): `UnknownPort`
when no input port has the given name, `ValueParseError` when the payload
does not parse, otherwise appends the parsed value to that port's bag. -/
def RtComponent.inject {V : Type} (c : RtComponent V) (portName value : String) :
    Except ComponentError (RtComponent V) :=
  (injectPorts portName value c.inPorts).map (fun ps => ⟨ps⟩)

/-- The injection arm of `InputQueue::inject_timeout`
(`xdevs/src/simulation/rt/input.rs`): an injection error is logged and the
event is skipped; in both arms the handler returns and the simulation
continues with the resulting component. -/
def injectTimeout {V : Type} (c : RtComponent V) (portName value : String) :
    RtComponent V :=
  match c.inject portName value with
  | .ok c1 => c1
  | .error _ => c

/-! The `Processor` atomic model (`xdevs/src/gpt/processor.rs`). -/

/-- `Job(usize, f64)` from `xdevs/src/gpt.rs`. -/
structure Job where
  id : Nat
  time : ℤ
deriving DecidableEq

/-- The state fields of `Processor`: `sigma`, the processing `time`, and the
current `job`. -/
structure ProcessorState where
  sigma : DTime
  time : ℤ
  job : Option Nat
deriving DecidableEq

/-- `Processor::delta_int`: `sigma = INFINITY`, `job = None`. -/
def processorDeltaInt (s : ProcessorState) : ProcessorState :=
  { s with sigma := .inf, job := none }

/-- `Processor::delta_ext`: `sigma -= e`; when idle, take the first value of
`input_req` (`none` models the `unwrap` panic on an empty bag) and set
`sigma` to the processing time. -/
def processorDeltaExt (s : ProcessorState) (e : DTime) (inputReq : List Nat) :
    Option ProcessorState :=
  let s1 := { s with sigma := DTime.sub s.sigma e }
  match s1.job with
  | some _ => some s1
  | none =>
      match inputReq with
      | [] => none
      | v :: _ => some { s1 with job := some v, sigma := .fin s1.time }

/-- `Processor::lambda`: emits `Job(job, time)` on `output_res` exactly when
a job is present. -/
def processorLambda (s : ProcessorState) : List Job :=
  match s.job with
  | some j => [⟨j, s.time⟩]
  | none => []

/-- `Processor::ta`. -/
def processorTa (s : ProcessorState) : DTime := s.sigma

/-! The DEVStone LI benchmark (`src/devstone.rs`, `src/devstone/li.rs`),
with the test probe attached: the probe counters live in the atomic states
here instead of a shared cell. -/

/-- State of a DEVStone atomic (`sigma` plus the transition counters) or of
the seeder (`sigma` alone). The two atomic kinds of the benchmark share one
state type; each behaviour only ever sees its own constructor. -/
inductive DSSt where
  | ds (sigma : DTime) (nInt nExt nEv : Nat)
  | seed (sigma : DTime)
deriving DecidableEq

/-- `DEVStoneAtomic::delta_int`: count it and set `sigma = INFINITY`. -/
def dsDeltaInt : DSSt → DSSt
  | .ds _ a b c => .ds .inf (a + 1) b c
  | .seed q => .seed q

/-- `DEVStoneAtomic::delta_ext`: count it, count the received values, and
set `sigma = 0`. -/
def dsDeltaExt (s : DSSt) (_e : DTime) (inB : Bags Nat) : DSSt :=
  match s with
  | .ds _ a b c => .ds (.fin 0) a (b + 1) (c + (getBag inB 0).length)
  | .seed q => .seed q

/-- `DEVStoneAtomic::lambda`: emit `n_events` on `output`. -/
def dsLambda (s : DSSt) (outB : Bags Nat) : Bags Nat :=
  match s with
  | .ds _ _ _ c => bagAppendAt outB 0 [c]
  | .seed _ => outB

/-- `DEVStoneAtomic::ta` / `DEVStoneSeeder::ta`. -/
def dsTa : DSSt → DTime
  | .ds q _ _ _ => q
  | .seed q => q

/-- The DEVStone atomic's behaviour (`delta_conf` is the trait default). -/
def dsBeh : AtomicBeh DTime Nat DSSt :=
  { deltaInt := dsDeltaInt
    deltaExt := dsDeltaExt
    deltaConf := defaultDeltaConf (DTime.fin 0) dsDeltaInt dsDeltaExt
    lambda := dsLambda
    ta := dsTa }

/-- `DEVStoneSeeder::delta_int` and `delta_ext`: `sigma = INFINITY`. -/
def seederDelta : DSSt → DSSt
  | .seed _ => .seed .inf
  | .ds q a b c => .ds q a b c

/-- `DEVStoneSeeder::lambda`: emit `0` on `output`. -/
def seederLambda (_s : DSSt) (outB : Bags Nat) : Bags Nat :=
  bagAppendAt outB 0 [0]

/-- The seeder's behaviour (`delta_conf` is the trait default). -/
def seederBeh : AtomicBeh DTime Nat DSSt :=
  { deltaInt := seederDelta
    deltaExt := fun s _ _ => seederDelta s
    deltaConf := defaultDeltaConf (DTime.fin 0) seederDelta (fun s _ _ => seederDelta s)
    lambda := seederLambda
    ta := dsTa }

/-- A freshly constructed DEVStone atomic: one input port, one output port,
`sigma = INFINITY`, all counters zero (`Component::new` starts with
`t_last = 0`, `t_next = +∞`). -/
def dsAtomicInit : Node DTime Nat DSSt :=
  .atomic dsBeh (.ds .inf 0 0 0) (.fin 0) .inf [[]] [[]]

/-- A freshly constructed seeder: no input port, one output port,
`sigma = 0`. -/
def seederInit : Node DTime Nat DSSt :=
  .atomic seederBeh (.seed (.fin 0)) (.fin 0) .inf [] [[]]

/-- `LI::new` (`src/devstone/li.rs`) at depth `k + 1`: each level owns one
`input` and one `output` port; the innermost level holds the single inner
atomic with an EIC onto it and an EOC out of it; every other level holds the
next level (child 0) plus `width - 1` parallel atomics, EICs from the level
input to every child, and one EOC from the next level's output. -/
def liAux (w : Nat) : Nat → Node DTime Nat DSSt
  | 0 => .coupled (.fin 0) .inf [[]] [[]] [dsAtomicInit]
      [(.childIn 0 0, .selfIn 0)] [] [(.selfOut 0, .childOut 0 0)]
  | k + 1 => .coupled (.fin 0) .inf [[]] [[]]
      (liAux w k :: List.replicate (w - 1) dsAtomicInit)
      ((.childIn 0 0, .selfIn 0) ::
        (List.range (w - 1)).map (fun i => (.childIn (i + 1) 0, .selfIn 0)))
      []
      [(.selfOut 0, .childOut 0 0)]

/-- `LI::create` (`src/devstone/li.rs`): a portless root coupled holding the
seeder (child 0) and the LI tree of depth `d` (child 1), with one IC from
the seeder's output to the tree's input. -/
def liCreate (w d : Nat) : Node DTime Nat DSSt :=
  .coupled (.fin 0) .inf [] [] [seederInit, liAux w (d - 1)] []
    [(.childIn 1 0, .childOut 0 0)] []

/-- Number of atomic models in a tree (what the probe's `n_atomics`
accumulates over `DEVStoneAtomic::new` calls), recursion bounded by the
first argument. -/
def countAtomics {T V S : Type} : Nat → Node T V S → Nat
  | 0, _ => 0
  | _ + 1, .atomic _ _ _ _ _ _ => 1
  | f + 1, .coupled _ _ _ _ cs _ _ _ => (cs.map (countAtomics f)).sum

/-- Total number of EICs in a tree (the probe's `n_eics`). -/
def countEics {T V S : Type} : Nat → Node T V S → Nat
  | 0, _ => 0
  | _ + 1, .atomic _ _ _ _ _ _ => 0
  | f + 1, .coupled _ _ _ _ cs eics _ _ => eics.length + (cs.map (countEics f)).sum

/-- Total number of ICs in a tree (the probe's `n_ics`). -/
def countIcs {T V S : Type} : Nat → Node T V S → Nat
  | 0, _ => 0
  | _ + 1, .atomic _ _ _ _ _ _ => 0
  | f + 1, .coupled _ _ _ _ cs _ ics _ => ics.length + (cs.map (countIcs f)).sum

/-- Total number of EOCs in a tree (the probe's `n_eocs`). -/
def countEocs {T V S : Type} : Nat → Node T V S → Nat
  | 0, _ => 0
  | _ + 1, .atomic _ _ _ _ _ _ => 0
  | f + 1, .coupled _ _ _ _ cs _ _ eocs => eocs.length + (cs.map (countEocs f)).sum

/-- The `(n_internals, n_externals)` counter pairs of every DEVStone atomic
in the tree, in depth-first order (the seeder carries no counters). -/
def collectCounts : Nat → Node DTime Nat DSSt → List (Nat × Nat)
  | 0, _ => []
  | _ + 1, .atomic _ s _ _ _ _ =>
      match s with
      | .ds _ a b _ => [(a, b)]
      | .seed _ => []
  | f + 1, .coupled _ _ _ _ cs _ _ _ => (cs.map (collectCounts f)).flatten

/-! Helper lemmas. -/

theorem appendInBag_inBags {T V S : Type} (n : Node T V S) (p : Nat) (vs : List V) :
    (n.appendInBag p vs).inBags = bagAppendAt n.inBags p vs := by
  cases n <;> rfl

theorem appendInBag_outBags {T V S : Type} (n : Node T V S) (p : Nat) (vs : List V) :
    (n.appendInBag p vs).outBags = n.outBags := by
  cases n <;> rfl

theorem appendOutBag_outBags {T V S : Type} (n : Node T V S) (p : Nat) (vs : List V) :
    (n.appendOutBag p vs).outBags = bagAppendAt n.outBags p vs := by
  cases n <;> rfl

theorem appendOutBag_inBags {T V S : Type} (n : Node T V S) (p : Nat) (vs : List V) :
    (n.appendOutBag p vs).inBags = n.inBags := by
  cases n <;> rfl

theorem getBag_bagAppendAt_self {V : Type} (bags : Bags V) (p : Nat) (vs : List V)
    (h : p < bags.length) : getBag (bagAppendAt bags p vs) p = getBag bags p ++ vs :=
  getD_modifyAt_self bags p _ [] h

/-! Claims. -/

/-- C1: for every atomic model, `Simulator::transition(t)` dispatches as
follows.  If some input port is non-empty and `t == t_next`, it calls
`delta_conf` and then clears the output ports and the input ports; if input
is non-empty and `t != t_next`, it calls `delta_ext` with elapsed time
`t - t_last` and clears only the input ports; if input is empty and
`t == t_next`, it calls `delta_int` and clears only the output ports; if
input is empty and `t != t_next`, it returns the stored `t_next` with the
component unchanged.  In the three transition cases it sets `t_last = t` and
`t_next = t + ta()` with `ta` evaluated on the post-transition state, and
returns that `t_next` (the returned value is the stored `tNext` of the
resulting node). -/
theorem atomic_transition_dispatch {T V S : Type} (ops : TimeOps T) (k : Nat)
    (beh : AtomicBeh T V S) (s : S) (tL tN : T) (inB outB : Bags V) (t : T) :
    (allEmpty inB = false → ops.beq t tN = true →
      Node.transition ops (k + 1) t (.atomic beh s tL tN inB outB) =
        .atomic beh (beh.deltaConf s inB) t
          (ops.add t (beh.ta (beh.deltaConf s inB)))
          (clearBags inB) (clearBags outB)) ∧
    (allEmpty inB = false → ops.beq t tN = false →
      Node.transition ops (k + 1) t (.atomic beh s tL tN inB outB) =
        .atomic beh (beh.deltaExt s (ops.sub t tL) inB) t
          (ops.add t (beh.ta (beh.deltaExt s (ops.sub t tL) inB)))
          (clearBags inB) outB) ∧
    (allEmpty inB = true → ops.beq t tN = true →
      Node.transition ops (k + 1) t (.atomic beh s tL tN inB outB) =
        .atomic beh (beh.deltaInt s) t
          (ops.add t (beh.ta (beh.deltaInt s)))
          inB (clearBags outB)) ∧
    (allEmpty inB = true → ops.beq t tN = false →
      Node.transition ops (k + 1) t (.atomic beh s tL tN inB outB) =
        .atomic beh s tL tN inB outB) := by
  refine ⟨fun h1 h2 => ?_, fun h1 h2 => ?_, fun h1 h2 => ?_, fun h1 h2 => ?_⟩ <;>
    simp [Node.transition, h1, h2]

/-- Witness for `atomic_transition_dispatch`: each of the four dispatch
cases, exercised on the DEVStone atomic at concrete times and bags. -/
theorem atomic_transition_dispatch_witness :
    (Node.transition DTime.ops 1 (.fin 1)
        (.atomic dsBeh (.ds .inf 0 0 0) (.fin 0) (.fin 1) [[5]] [[7]]) =
      .atomic dsBeh (dsBeh.deltaConf (.ds .inf 0 0 0) [[5]]) (.fin 1)
        (DTime.ops.add (.fin 1) (dsBeh.ta (dsBeh.deltaConf (.ds .inf 0 0 0) [[5]])))
        (clearBags [[5]]) (clearBags [[7]])) ∧
    (Node.transition DTime.ops 1 (.fin 1)
        (.atomic dsBeh (.ds .inf 0 0 0) (.fin 0) (.fin 2) [[5]] [[7]]) =
      .atomic dsBeh (dsBeh.deltaExt (.ds .inf 0 0 0) (DTime.ops.sub (.fin 1) (.fin 0)) [[5]])
        (.fin 1)
        (DTime.ops.add (.fin 1)
          (dsBeh.ta (dsBeh.deltaExt (.ds .inf 0 0 0) (DTime.ops.sub (.fin 1) (.fin 0)) [[5]])))
        (clearBags [[5]]) [[7]]) ∧
    (Node.transition DTime.ops 1 (.fin 1)
        (.atomic dsBeh (.ds (.fin 1) 0 0 0) (.fin 0) (.fin 1) [[]] [[7]]) =
      .atomic dsBeh (dsBeh.deltaInt (.ds (.fin 1) 0 0 0)) (.fin 1)
        (DTime.ops.add (.fin 1) (dsBeh.ta (dsBeh.deltaInt (.ds (.fin 1) 0 0 0))))
        [[]] (clearBags [[7]])) ∧
    (Node.transition DTime.ops 1 (.fin 1)
        (.atomic dsBeh (.ds (.fin 2) 0 0 0) (.fin 0) (.fin 2) [[]] [[7]]) =
      .atomic dsBeh (.ds (.fin 2) 0 0 0) (.fin 0) (.fin 2) [[]] [[7]]) :=
  ⟨(atomic_transition_dispatch DTime.ops 0 dsBeh (.ds .inf 0 0 0) (.fin 0) (.fin 1)
      [[5]] [[7]] (.fin 1)).1 (by decide) (by decide),
   (atomic_transition_dispatch DTime.ops 0 dsBeh (.ds .inf 0 0 0) (.fin 0) (.fin 2)
      [[5]] [[7]] (.fin 1)).2.1 (by decide) (by decide),
   (atomic_transition_dispatch DTime.ops 0 dsBeh (.ds (.fin 1) 0 0 0) (.fin 0) (.fin 1)
      [[]] [[7]] (.fin 1)).2.2.1 (by decide) (by decide),
   (atomic_transition_dispatch DTime.ops 0 dsBeh (.ds (.fin 2) 0 0 0) (.fin 0) (.fin 2)
      [[]] [[7]] (.fin 1)).2.2.2 (by decide) (by decide)⟩

/-- C2: for every coupled model, immediately after `start(t_start)` or
`transition(t)` returns, the stored `t_next` equals the minimum of the
`t_next` values of its subcomponents (the minimum of an empty subcomponent
list being `+∞`, the `never` literal); `start(t_start)` stores — and, in the
source, returns — exactly that minimum and sets `t_last = t_start`.  For
`transition`, whose inactive branch touches neither the subcomponents nor
the stored times, the property is an invariant: it holds after the call
whenever it held before. -/
theorem coupled_schedule_invariant {T V S : Type} (ops : TimeOps T) (k : Nat)
    (tStart t tL tN : T) (inB outB : Bags V) (cs : List (Node T V S))
    (eics ics eocs : List (Endpoint × Endpoint)) :
    ((Node.start ops (k + 1) tStart (.coupled tL tN inB outB cs eics ics eocs)).tNext =
        listMin ops
          ((Node.start ops (k + 1) tStart
            (.coupled tL tN inB outB cs eics ics eocs)).children.map Node.tNext) ∧
      (Node.start ops (k + 1) tStart
        (.coupled tL tN inB outB cs eics ics eocs)).tLast = tStart ∧
      listMin ops ([] : List T) = ops.never) ∧
    (tN = listMin ops (cs.map Node.tNext) →
      (Node.transition ops (k + 1) t (.coupled tL tN inB outB cs eics ics eocs)).tNext =
        listMin ops
          ((Node.transition ops (k + 1) t
            (.coupled tL tN inB outB cs eics ics eocs)).children.map Node.tNext)) := by
  constructor
  · exact ⟨rfl, rfl, rfl⟩
  · intro hInv
    by_cases hE : allEmpty inB
    · by_cases hI : ops.ble tN t = true
      · simp [Node.transition, hE, hI, Node.tNext, Node.children]
      · simp only [Bool.not_eq_true] at hI
        simp only [Node.transition, hE, hI]
        simp only [Bool.not_true, Bool.false_or, if_false, Node.tNext, Node.children]
        exact hInv
    · simp only [Bool.not_eq_true] at hE
      simp [Node.transition, hE, Node.tNext, Node.children]

/-- Witness for `coupled_schedule_invariant`: a coupled model with one
DEVStone atomic subcomponent, started and transitioned at time 0; the
`transition` hypothesis (the invariant holding beforehand) is discharged by
evaluation. -/
theorem coupled_schedule_invariant_witness :
    ((Node.start DTime.ops 3 (.fin 0)
        (.coupled (.fin 0) .inf [[]] [[]] [dsAtomicInit]
          [(.childIn 0 0, .selfIn 0)] [] [(.selfOut 0, .childOut 0 0)])).tNext =
      listMin DTime.ops
        ((Node.start DTime.ops 3 (.fin 0)
          (.coupled (.fin 0) .inf [[]] [[]] [dsAtomicInit]
            [(.childIn 0 0, .selfIn 0)] [] [(.selfOut 0, .childOut 0 0)])).children.map
          Node.tNext)) ∧
    ((Node.transition DTime.ops 3 (.fin 0)
        (.coupled (.fin 0) .inf [[0]] [[]] [dsAtomicInit]
          [(.childIn 0 0, .selfIn 0)] [] [(.selfOut 0, .childOut 0 0)])).tNext =
      listMin DTime.ops
        ((Node.transition DTime.ops 3 (.fin 0)
          (.coupled (.fin 0) .inf [[0]] [[]] [dsAtomicInit]
            [(.childIn 0 0, .selfIn 0)] [] [(.selfOut 0, .childOut 0 0)])).children.map
          Node.tNext)) :=
  ⟨(coupled_schedule_invariant DTime.ops 2 (.fin 0) (.fin 0) (.fin 0) .inf
      [[]] [[]] [dsAtomicInit] [(.childIn 0 0, .selfIn 0)] []
      [(.selfOut 0, .childOut 0 0)]).1.1,
   (coupled_schedule_invariant DTime.ops 2 (.fin 0) (.fin 0) (.fin 0) .inf
      [[0]] [[]] [dsAtomicInit] [(.childIn 0 0, .selfIn 0)] []
      [(.selfOut 0, .childOut 0 0)]).2 (by decide)⟩

/-- C5: for every node (atomic or coupled), calling `collection(t)` with `t`
strictly less than the node's current `t_next` is a no-op: the node — every
port bag and both timestamps — is returned unchanged, so no `lambda` runs
and no message is routed; output emission and EOC/IC routing happen only
when `t >= t_next`. -/
theorem collection_noop {V S : Type} (f : Nat) (t : DTime)
    (n : Node DTime V S) (h : DTime.blt t n.tNext = true) :
    Node.collection DTime.ops f t n = n := by
  have hb : DTime.ble n.tNext t = false := (DTime.blt_iff_not_ble t n.tNext).mp h
  cases f with
  | zero => rfl
  | succ k =>
    cases n with
    | atomic beh s tL tN inB outB =>
      simp only [Node.tNext] at hb
      simp [Node.collection, DTime.ops, hb]
    | coupled tL tN inB outB cs eics ics eocs =>
      simp only [Node.tNext] at hb
      simp [Node.collection, DTime.ops, hb]

/-- Witness for `collection_noop`: an atomic scheduled at time 3 collects
nothing at time 2, and a coupled scheduled at time 3 likewise. -/
theorem collection_noop_witness :
    Node.collection DTime.ops 4 (.fin 2)
        (.atomic dsBeh (.ds (.fin 3) 0 0 0) (.fin 0) (.fin 3) [[]] [[]]) =
      .atomic dsBeh (.ds (.fin 3) 0 0 0) (.fin 0) (.fin 3) [[]] [[]] ∧
    Node.collection DTime.ops 4 (.fin 2)
        (.coupled (.fin 0) (.fin 3) [[]] [[]] [dsAtomicInit]
          [(.childIn 0 0, .selfIn 0)] [] [(.selfOut 0, .childOut 0 0)]) =
      .coupled (.fin 0) (.fin 3) [[]] [[]] [dsAtomicInit]
        [(.childIn 0 0, .selfIn 0)] [] [(.selfOut 0, .childOut 0 0)] :=
  ⟨collection_noop 4 (.fin 2)
      (.atomic dsBeh (.ds (.fin 3) 0 0 0) (.fin 0) (.fin 3) [[]] [[]]) (by decide),
   collection_noop 4 (.fin 2)
      (.coupled (.fin 0) (.fin 3) [[]] [[]] [dsAtomicInit]
        [(.childIn 0 0, .selfIn 0)] [] [(.selfOut 0, .childOut 0 0)]) (by decide)⟩

/-- C6: in `RootCoordinator::simulate_rt`, whenever the waiter returns a
virtual time `t` strictly less than the pending next internal event time
while all input ports of the root component are empty, the engine calls
neither `collection` nor `transition` in that iteration and re-enters the
waiter with the same `t_next` (the iteration leaves the model untouched and
both call flags are false); a `transition` at a time earlier than `t_next`
is executed — without any `collection` — exactly when external input was
injected. -/
theorem rt_spurious_wakeup {V S : Type} (depth : Nat) (n : Node DTime V S)
    (tNI t : DTime) (hlt : DTime.blt t tNI = true) :
    (allEmpty n.inBags = true →
      rtIteration DTime.ops depth n tNI t = (n, tNI, false, false)) ∧
    (allEmpty n.inBags = false →
      rtIteration DTime.ops depth n tNI t =
        (Node.transition DTime.ops depth t n,
          (Node.transition DTime.ops depth t n).tNext, false, true)) := by
  have hb : DTime.ble tNI t = false := (DTime.blt_iff_not_ble t tNI).mp hlt
  constructor
  · intro hE
    simp [rtIteration, DTime.ops, hb, hE]
  · intro hE
    simp [rtIteration, DTime.ops, hb, hE]

/-- Witness for `rt_spurious_wakeup`: the waiter returns time 1 while the
next internal event is at time 3; with an empty root input the iteration is
skipped, with a non-empty root input only `transition` runs. -/
theorem rt_spurious_wakeup_witness :
    rtIteration DTime.ops 2 dsAtomicInit (.fin 3) (.fin 1) =
      (dsAtomicInit, .fin 3, false, false) ∧
    rtIteration DTime.ops 2
        (.atomic dsBeh (.ds .inf 0 0 0) (.fin 0) .inf [[4]] [[]]) (.fin 3) (.fin 1) =
      (Node.transition DTime.ops 2 (.fin 1)
          (.atomic dsBeh (.ds .inf 0 0 0) (.fin 0) .inf [[4]] [[]]),
        (Node.transition DTime.ops 2 (.fin 1)
          (.atomic dsBeh (.ds .inf 0 0 0) (.fin 0) .inf [[4]] [[]])).tNext,
        false, true) :=
  ⟨(rt_spurious_wakeup 2 dsAtomicInit (.fin 3) (.fin 1) (by decide)).1 (by decide),
   (rt_spurious_wakeup 2
      (.atomic dsBeh (.ds .inf 0 0 0) (.fin 0) .inf [[4]] [[]]) (.fin 3) (.fin 1)
      (by decide)).2 (by decide)⟩

/-- C8: the default confluent transition `delta_conf` equals `delta_int`
followed by `delta_ext` with elapsed time `0.0` applied to the state
`delta_int` produced.  `delta_conf` itself clears no port — it only returns
a state — and, in the confluent branch of the atomic simulator, `delta_conf`
still sees the pre-clear input bags while the input bags of the resulting
node are cleared exactly once, after `delta_conf` returns (together with the
output bags). -/
theorem default_delta_conf_spec {T V S : Type} (ops : TimeOps T) (k : Nat)
    (z : T) (beh : AtomicBeh T V S) (s : S) (tL tN : T) (inB outB : Bags V)
    (t : T) :
    (defaultDeltaConf z beh.deltaInt beh.deltaExt s inB =
      beh.deltaExt (beh.deltaInt s) z inB) ∧
    (beh.deltaConf = defaultDeltaConf z beh.deltaInt beh.deltaExt →
      allEmpty inB = false → ops.beq t tN = true →
      Node.transition ops (k + 1) t (.atomic beh s tL tN inB outB) =
        .atomic beh (beh.deltaExt (beh.deltaInt s) z inB) t
          (ops.add t (beh.ta (beh.deltaExt (beh.deltaInt s) z inB)))
          (clearBags inB) (clearBags outB)) := by
  refine ⟨rfl, fun hC h1 h2 => ?_⟩
  simp [Node.transition, h1, h2, hC, defaultDeltaConf]

/-- Witness for `default_delta_conf_spec`: the DEVStone atomic (whose
`delta_conf` is the trait default) at a confluent instant. -/
theorem default_delta_conf_spec_witness :
    Node.transition DTime.ops 1 (.fin 2)
        (.atomic dsBeh (.ds (.fin 2) 0 0 0) (.fin 0) (.fin 2) [[9]] [[1]]) =
      .atomic dsBeh
        (dsBeh.deltaExt (dsBeh.deltaInt (.ds (.fin 2) 0 0 0)) (.fin 0) [[9]])
        (.fin 2)
        (DTime.ops.add (.fin 2)
          (dsBeh.ta (dsBeh.deltaExt (dsBeh.deltaInt (.ds (.fin 2) 0 0 0)) (.fin 0) [[9]])))
        (clearBags [[9]]) (clearBags [[1]]) :=
  (default_delta_conf_spec DTime.ops 0 (.fin 0) dsBeh (.ds (.fin 2) 0 0 0)
    (.fin 0) (.fin 2) [[9]] [[1]] (.fin 2)).2 rfl (by decide) (by decide)

/-- C3: routing one coupling (EIC, IC, or EOC, during collection or
transition) appends the contents of the source port's bag onto the end of
the destination port's bag — preserving the destination's existing contents
and the source's value order — and leaves the source port's bag unchanged;
`propagate` itself requires both endpoints to have the same element type
(`Port::upgrade` panics otherwise, embedded as `none`).  The routing parts
cover the three endpoint shapes the coupled model builds: EIC
`(child input, own input)`, IC `(child input, child output)`, EOC
`(own output, child output)`. -/
theorem coupling_routing_appends {T V S W : Type} :
    (∀ dst src : TaggedPort W,
      (dst.tag = src.tag →
        dst.propagate src = some ⟨dst.tag, dst.values ++ src.values⟩) ∧
      (dst.tag ≠ src.tag → dst.propagate src = none)) ∧
    (∀ (inB outB : Bags V) (cs : List (Node T V S)) (c p q : Nat)
        (n : Node T V S), cs[c]? = some n → p < n.inBags.length →
      readEndpoint (routeOne (inB, outB, cs) (.childIn c p, .selfIn q))
          (.childIn c p) =
        readEndpoint (inB, outB, cs) (.childIn c p) ++
          readEndpoint (inB, outB, cs) (.selfIn q) ∧
      readEndpoint (routeOne (inB, outB, cs) (.childIn c p, .selfIn q))
          (.selfIn q) =
        readEndpoint (inB, outB, cs) (.selfIn q)) ∧
    (∀ (inB outB : Bags V) (cs : List (Node T V S)) (c p c2 q : Nat)
        (n : Node T V S), cs[c]? = some n → p < n.inBags.length →
      readEndpoint (routeOne (inB, outB, cs) (.childIn c p, .childOut c2 q))
          (.childIn c p) =
        readEndpoint (inB, outB, cs) (.childIn c p) ++
          readEndpoint (inB, outB, cs) (.childOut c2 q) ∧
      readEndpoint (routeOne (inB, outB, cs) (.childIn c p, .childOut c2 q))
          (.childOut c2 q) =
        readEndpoint (inB, outB, cs) (.childOut c2 q)) ∧
    (∀ (inB outB : Bags V) (cs : List (Node T V S)) (p c q : Nat),
        p < outB.length →
      readEndpoint (routeOne (inB, outB, cs) (.selfOut p, .childOut c q))
          (.selfOut p) =
        readEndpoint (inB, outB, cs) (.selfOut p) ++
          readEndpoint (inB, outB, cs) (.childOut c q) ∧
      readEndpoint (routeOne (inB, outB, cs) (.selfOut p, .childOut c q))
          (.childOut c q) =
        readEndpoint (inB, outB, cs) (.childOut c q)) := by
  refine ⟨fun dst src => ⟨fun h => ?_, fun h => ?_⟩,
    fun inB outB cs c p q n hc hp => ⟨?_, rfl⟩,
    fun inB outB cs c p c2 q n hc hp => ⟨?_, ?_⟩,
    fun inB outB cs p c q hp => ⟨?_, rfl⟩⟩
  · simp [TaggedPort.propagate, h]
  · simp [TaggedPort.propagate, h]
  · simp only [routeOne, readEndpoint, writeEndpoint]
    rw [getElem?_modifyAt_self, hc]
    simp only [Option.map_some', appendInBag_inBags]
    rw [getBag_bagAppendAt_self _ _ _ hp]
  · simp only [routeOne, readEndpoint, writeEndpoint]
    rw [getElem?_modifyAt_self, hc]
    simp only [Option.map_some', appendInBag_inBags]
    rw [getBag_bagAppendAt_self _ _ _ hp]
  · simp only [routeOne, readEndpoint, writeEndpoint]
    by_cases hcc : c2 = c
    · subst hcc
      rw [getElem?_modifyAt_self, hc]
      simp [appendInBag_outBags]
    · rw [getElem?_modifyAt_ne _ _ _ _ hcc]
  · simp only [routeOne, readEndpoint, writeEndpoint]
    rw [getBag_bagAppendAt_self _ _ _ hp]

/-- Witness for `coupling_routing_appends`: a same-typed and a
differently-typed `propagate`, plus one routing step of each coupling kind
on a coupled model holding one DEVStone atomic with a non-empty output
bag. -/
theorem coupling_routing_appends_witness :
    (TaggedPort.propagate ⟨0, [1, 2]⟩ ⟨0, [3]⟩ =
        some (⟨0, [1, 2, 3]⟩ : TaggedPort Nat) ∧
      TaggedPort.propagate ⟨0, [1]⟩ ⟨1, [3]⟩ = (none : Option (TaggedPort Nat))) ∧
    (readEndpoint
        (routeOne ([[7]], [[]],
          [Node.atomic dsBeh (.ds .inf 0 0 0) (.fin 0) .inf [[5]] [[6]]])
          (.childIn 0 0, .selfIn 0)) (.childIn 0 0) = [5, 7] ∧
      readEndpoint
        (routeOne ([[7]], [[]],
          [Node.atomic dsBeh (.ds .inf 0 0 0) (.fin 0) .inf [[5]] [[6]]])
          (.childIn 0 0, .selfIn 0)) (.selfIn 0) = [7]) ∧
    (readEndpoint
        (routeOne ([[7]], [[]],
          [Node.atomic dsBeh (.ds .inf 0 0 0) (.fin 0) .inf [[5]] [[6]]])
          (.childIn 0 0, .childOut 0 0)) (.childIn 0 0) = [5, 6] ∧
      readEndpoint
        (routeOne ([[7]], [[]],
          [Node.atomic dsBeh (.ds .inf 0 0 0) (.fin 0) .inf [[5]] [[6]]])
          (.childIn 0 0, .childOut 0 0)) (.childOut 0 0) = [6]) ∧
    (readEndpoint
        (routeOne ([[7]], [[8]],
          [Node.atomic dsBeh (.ds .inf 0 0 0) (.fin 0) .inf [[5]] [[6]]])
          (.selfOut 0, .childOut 0 0)) (.selfOut 0) = [8, 6] ∧
      readEndpoint
        (routeOne ([[7]], [[8]],
          [Node.atomic dsBeh (.ds .inf 0 0 0) (.fin 0) .inf [[5]] [[6]]])
          (.selfOut 0, .childOut 0 0)) (.childOut 0 0) = [6]) := by
  refine ⟨⟨((coupling_routing_appends (T := DTime) (V := Nat) (S := DSSt)
      (W := Nat)).1 ⟨0, [1, 2]⟩ ⟨0, [3]⟩).1 rfl,
    ((coupling_routing_appends (T := DTime) (V := Nat) (S := DSSt)
      (W := Nat)).1 ⟨0, [1]⟩ ⟨1, [3]⟩).2 (by decide)⟩, ?_, ?_, ?_⟩
  · have h := (coupling_routing_appends (W := Nat)).2.1 [[7]] [[]]
      [Node.atomic dsBeh (.ds .inf 0 0 0) (.fin 0) .inf [[5]] [[6]]]
      0 0 0 (Node.atomic dsBeh (.ds .inf 0 0 0) (.fin 0) .inf [[5]] [[6]])
      rfl (by decide)
    exact ⟨h.1.trans (by decide), h.2.trans (by decide)⟩
  · have h := (coupling_routing_appends (W := Nat)).2.2.1 [[7]] [[]]
      [Node.atomic dsBeh (.ds .inf 0 0 0) (.fin 0) .inf [[5]] [[6]]]
      0 0 0 0 (Node.atomic dsBeh (.ds .inf 0 0 0) (.fin 0) .inf [[5]] [[6]])
      rfl (by decide)
    exact ⟨h.1.trans (by decide), h.2.trans (by decide)⟩
  · have h := (coupling_routing_appends (W := Nat)).2.2.2 [[7]] [[8]]
      [Node.atomic dsBeh (.ds .inf 0 0 0) (.fin 0) .inf [[5]] [[6]]]
      0 0 0 (by decide)
    exact ⟨h.1.trans (by decide), h.2.trans (by decide)⟩

/-- A coupled model under construction whose endpoint names collide once
joined with `"-"`: the parent has input `"i"`, one child is named `"a-b"`
with input `"c"`, another is named `"a"` with input `"b-c"` (all ports of
the same element type). -/
def collisionBuilder : CoupledB :=
  { component := ⟨"top", [⟨"i", 0⟩], []⟩
    comps := [⟨"a-b", [⟨"c", 0⟩], []⟩, ⟨"a", [⟨"b-c", 0⟩], []⟩]
    eicMap := [], icMap := [], eocMap := []
    eics := [], ics := [], eocs := [] }

/-- `collisionBuilder` after `add_eic("i", "a-b", "c")` succeeded. -/
def collisionBuilder1 : CoupledB :=
  { collisionBuilder with
    eicMap := [("a-b-c", ["i"])]
    eics := [(⟨"a-b", "c", 0⟩, ⟨"top", "i", 0⟩)] }

/-- C4 counterexample: `add_eic` panics on an input that meets none of the
claim's panic conditions.  After `add_eic("i", "a-b", "c")` succeeds, the
call `add_eic("i", "a", "b-c")` resolves every endpoint, connects ports of
equal element types, and adds a coupling whose endpoint pair differs from
the only existing one — yet it fails with the duplicate panic, because the
deduplication key joins component and port names with `"-"` and
`"a-b" / "c"` collides with `"a" / "b-c"`. -/
theorem addEic_claim_counterexample :
    collisionBuilder.addEic "i" "a-b" "c" = .ok collisionBuilder1 ∧
    collisionBuilder1.addEic "i" "a" "b-c" = .error .duplicate ∧
    collisionBuilder1.component.getInPort "i" = some ⟨"i", 0⟩ ∧
    collisionBuilder1.getComponent "a" = some ⟨"a", [⟨"b-c", 0⟩], []⟩ ∧
    (⟨"a", [⟨"b-c", 0⟩], []⟩ : CComponent).getInPort "b-c" = some ⟨"b-c", 0⟩ ∧
    (⟨"i", 0⟩ : CPort).tag = (⟨"b-c", 0⟩ : CPort).tag ∧
    ((⟨"a", "b-c", 0⟩, ⟨"top", "i", 0⟩) : PortRef × PortRef) ∉ collisionBuilder1.eics := by
  refine ⟨rfl, rfl, by decide, by decide, by decide, rfl, by decide⟩

/-- C4 (amended): each of `add_eic`, `add_ic`, `add_eoc` panics when a named
endpoint (port or subcomponent) cannot be resolved, panics when the two
resolved ports have different element types, panics when the deduplication
key of the new coupling — the endpoint names, each child-side endpoint
joined as `component-port` — is already present (which covers every coupling
with the same source and destination endpoints, but also rejects distinct
endpoints whose joined names coincide), and on success appends the pair
`(destination_port, source_port)` — in that order — to the corresponding
serialized coupling vector used by the scheduler. -/
theorem add_coupling_behaviour :
    (∀ (b : CoupledB) (pf ct pt : String),
      (b.component.getInPort pf = none → b.addEic pf ct pt = .error .unresolved) ∧
      (b.getComponent ct = none → b.addEic pf ct pt = .error .unresolved) ∧
      (∀ comp, b.getComponent ct = some comp → comp.getInPort pt = none →
        b.addEic pf ct pt = .error .unresolved) ∧
      (∀ p1 comp p2, b.component.getInPort pf = some p1 →
        b.getComponent ct = some comp → comp.getInPort pt = some p2 →
        (p1.tag ≠ p2.tag → b.addEic pf ct pt = .error .incompatible) ∧
        (p1.tag = p2.tag → pf ∈ mapGet b.eicMap (ct ++ "-" ++ pt) →
          b.addEic pf ct pt = .error .duplicate) ∧
        (p1.tag = p2.tag → pf ∉ mapGet b.eicMap (ct ++ "-" ++ pt) →
          b.addEic pf ct pt = .ok { b with
            eicMap := mapAdd b.eicMap (ct ++ "-" ++ pt) pf,
            eics := b.eics ++
              [(⟨ct, pt, p2.tag⟩, ⟨b.component.name, pf, p1.tag⟩)] }))) ∧
    (∀ (b : CoupledB) (cf pf ct pt : String),
      (b.getComponent cf = none → b.addIc cf pf ct pt = .error .unresolved) ∧
      (∀ cFrom, b.getComponent cf = some cFrom → cFrom.getOutPort pf = none →
        b.addIc cf pf ct pt = .error .unresolved) ∧
      (b.getComponent ct = none → b.addIc cf pf ct pt = .error .unresolved) ∧
      (∀ cTo, b.getComponent ct = some cTo → cTo.getInPort pt = none →
        b.addIc cf pf ct pt = .error .unresolved) ∧
      (∀ cFrom p1 cTo p2, b.getComponent cf = some cFrom →
        cFrom.getOutPort pf = some p1 → b.getComponent ct = some cTo →
        cTo.getInPort pt = some p2 →
        (p1.tag ≠ p2.tag → b.addIc cf pf ct pt = .error .incompatible) ∧
        (p1.tag = p2.tag →
          (cf ++ "-" ++ pf) ∈ mapGet b.icMap (ct ++ "-" ++ pt) →
          b.addIc cf pf ct pt = .error .duplicate) ∧
        (p1.tag = p2.tag →
          (cf ++ "-" ++ pf) ∉ mapGet b.icMap (ct ++ "-" ++ pt) →
          b.addIc cf pf ct pt = .ok { b with
            icMap := mapAdd b.icMap (ct ++ "-" ++ pt) (cf ++ "-" ++ pf),
            ics := b.ics ++ [(⟨ct, pt, p2.tag⟩, ⟨cf, pf, p1.tag⟩)] }))) ∧
    (∀ (b : CoupledB) (cf pf pt : String),
      (b.getComponent cf = none → b.addEoc cf pf pt = .error .unresolved) ∧
      (∀ cFrom, b.getComponent cf = some cFrom → cFrom.getOutPort pf = none →
        b.addEoc cf pf pt = .error .unresolved) ∧
      (∀ cFrom p1, b.getComponent cf = some cFrom →
        cFrom.getOutPort pf = some p1 → b.component.getOutPort pt = none →
        b.addEoc cf pf pt = .error .unresolved) ∧
      (∀ cFrom p1 p2, b.getComponent cf = some cFrom →
        cFrom.getOutPort pf = some p1 → b.component.getOutPort pt = some p2 →
        (p1.tag ≠ p2.tag → b.addEoc cf pf pt = .error .incompatible) ∧
        (p1.tag = p2.tag → (cf ++ "-" ++ pf) ∈ mapGet b.eocMap pt →
          b.addEoc cf pf pt = .error .duplicate) ∧
        (p1.tag = p2.tag → (cf ++ "-" ++ pf) ∉ mapGet b.eocMap pt →
          b.addEoc cf pf pt = .ok { b with
            eocMap := mapAdd b.eocMap pt (cf ++ "-" ++ pf),
            eocs := b.eocs ++
              [(⟨b.component.name, pt, p2.tag⟩, ⟨cf, pf, p1.tag⟩)] }))) := by
  refine ⟨fun b pf ct pt => ⟨fun h1 => ?_, fun h2 => ?_, fun comp h2 h3 => ?_,
      fun p1 comp p2 h1 h2 h3 => ⟨fun ht => ?_, fun ht hd => ?_, fun ht hd => ?_⟩⟩,
    fun b cf pf ct pt => ⟨fun h1 => ?_, fun cFrom h1 h2 => ?_, fun h3 => ?_,
      fun cTo h3 h4 => ?_,
      fun cFrom p1 cTo p2 h1 h2 h3 h4 => ⟨fun ht => ?_, fun ht hd => ?_, fun ht hd => ?_⟩⟩,
    fun b cf pf pt => ⟨fun h1 => ?_, fun cFrom h1 h2 => ?_, fun cFrom p1 h1 h2 h3 => ?_,
      fun cFrom p1 p2 h1 h2 h3 => ⟨fun ht => ?_, fun ht hd => ?_, fun ht hd => ?_⟩⟩⟩
  · simp [CoupledB.addEic, h1]
  · cases h1 : b.component.getInPort pf <;> simp [CoupledB.addEic, h1, h2]
  · cases h1 : b.component.getInPort pf <;> simp [CoupledB.addEic, h1, h2, h3]
  · simp [CoupledB.addEic, h1, h2, h3, ht]
  · simp [CoupledB.addEic, h1, h2, h3, ht, hd]
  · simp [CoupledB.addEic, h1, h2, h3, ht, hd]
  · simp [CoupledB.addIc, h1]
  · simp [CoupledB.addIc, h1, h2]
  · cases h1 : b.getComponent cf with
    | none => simp [CoupledB.addIc, h1]
    | some cF => cases h2 : cF.getOutPort pf <;> simp [CoupledB.addIc, h1, h2, h3]
  · cases h1 : b.getComponent cf with
    | none => simp [CoupledB.addIc, h1]
    | some cF => cases h2 : cF.getOutPort pf <;> simp [CoupledB.addIc, h1, h2, h3, h4]
  · simp [CoupledB.addIc, h1, h2, h3, h4, ht]
  · simp [CoupledB.addIc, h1, h2, h3, h4, ht, hd]
  · simp [CoupledB.addIc, h1, h2, h3, h4, ht, hd]
  · simp [CoupledB.addEoc, h1]
  · simp [CoupledB.addEoc, h1, h2]
  · simp [CoupledB.addEoc, h1, h2, h3]
  · simp [CoupledB.addEoc, h1, h2, h3, ht]
  · simp [CoupledB.addEoc, h1, h2, h3, ht, hd]
  · simp [CoupledB.addEoc, h1, h2, h3, ht, hd]

/-- Witness for `add_coupling_behaviour`: the success cases of the three
methods on a concrete coupled model (parent ports `pin`/`pout`, children `g`
and `p` with compatible ports), discharging every resolution, compatibility,
and deduplication hypothesis by evaluation. -/
theorem add_coupling_behaviour_witness :
    CoupledB.addEic
        ⟨⟨"top", [⟨"pin", 3⟩], [⟨"pout", 4⟩]⟩,
          [⟨"g", [⟨"gin", 3⟩], [⟨"gout", 4⟩]⟩], [], [], [], [], [], []⟩
        "pin" "g" "gin" =
      .ok ⟨⟨"top", [⟨"pin", 3⟩], [⟨"pout", 4⟩]⟩,
        [⟨"g", [⟨"gin", 3⟩], [⟨"gout", 4⟩]⟩], [("g-gin", ["pin"])], [], [],
        [(⟨"g", "gin", 3⟩, ⟨"top", "pin", 3⟩)], [], []⟩ ∧
    CoupledB.addIc
        ⟨⟨"top", [⟨"pin", 3⟩], [⟨"pout", 4⟩]⟩,
          [⟨"g", [⟨"gin", 3⟩], [⟨"gout", 4⟩]⟩,
           ⟨"p", [⟨"qin", 4⟩], []⟩], [], [], [], [], [], []⟩
        "g" "gout" "p" "qin" =
      .ok ⟨⟨"top", [⟨"pin", 3⟩], [⟨"pout", 4⟩]⟩,
        [⟨"g", [⟨"gin", 3⟩], [⟨"gout", 4⟩]⟩,
         ⟨"p", [⟨"qin", 4⟩], []⟩], [], [("p-qin", ["g-gout"])], [], [],
        [(⟨"p", "qin", 4⟩, ⟨"g", "gout", 4⟩)], []⟩ ∧
    CoupledB.addEoc
        ⟨⟨"top", [⟨"pin", 3⟩], [⟨"pout", 4⟩]⟩,
          [⟨"g", [⟨"gin", 3⟩], [⟨"gout", 4⟩]⟩], [], [], [], [], [], []⟩
        "g" "gout" "pout" =
      .ok ⟨⟨"top", [⟨"pin", 3⟩], [⟨"pout", 4⟩]⟩,
        [⟨"g", [⟨"gin", 3⟩], [⟨"gout", 4⟩]⟩], [], [], [("pout", ["g-gout"])],
        [], [], [(⟨"top", "pout", 4⟩, ⟨"g", "gout", 4⟩)]⟩ :=
  ⟨((add_coupling_behaviour.1
      ⟨⟨"top", [⟨"pin", 3⟩], [⟨"pout", 4⟩]⟩,
        [⟨"g", [⟨"gin", 3⟩], [⟨"gout", 4⟩]⟩], [], [], [], [], [], []⟩
      "pin" "g" "gin").2.2.2 ⟨"pin", 3⟩ ⟨"g", [⟨"gin", 3⟩], [⟨"gout", 4⟩]⟩
      ⟨"gin", 3⟩ (by decide) (by decide) (by decide)).2.2 rfl (by decide),
   ((add_coupling_behaviour.2.1
      ⟨⟨"top", [⟨"pin", 3⟩], [⟨"pout", 4⟩]⟩,
        [⟨"g", [⟨"gin", 3⟩], [⟨"gout", 4⟩]⟩,
         ⟨"p", [⟨"qin", 4⟩], []⟩], [], [], [], [], [], []⟩
      "g" "gout" "p" "qin").2.2.2.2 ⟨"g", [⟨"gin", 3⟩], [⟨"gout", 4⟩]⟩
      ⟨"gout", 4⟩ ⟨"p", [⟨"qin", 4⟩], []⟩ ⟨"qin", 4⟩
      (by decide) (by decide) (by decide) (by decide)).2.2 rfl (by decide),
   ((add_coupling_behaviour.2.2
      ⟨⟨"top", [⟨"pin", 3⟩], [⟨"pout", 4⟩]⟩,
        [⟨"g", [⟨"gin", 3⟩], [⟨"gout", 4⟩]⟩], [], [], [], [], [], []⟩
      "g" "gout" "pout").2.2.2 ⟨"g", [⟨"gin", 3⟩], [⟨"gout", 4⟩]⟩
      ⟨"gout", 4⟩ ⟨"pout", 4⟩
      (by decide) (by decide) (by decide)).2.2 rfl (by decide)⟩

theorem exceptMapError {ε α β : Type} (f : α → β) (e : ε) :
    Except.map f (Except.error e) = Except.error e := rfl

theorem exceptMapOk {ε α β : Type} (f : α → β) (a : α) :
    Except.map f (Except.ok a) = (Except.ok (f a) : Except ε β) := rfl

theorem injectPorts_cases {V : Type} (port value : String) :
    ∀ ps : List (RtInPort V),
      (ps.find? (fun p => p.name == port) = none →
        injectPorts port value ps = .error .UnknownPort) ∧
      (∀ p, ps.find? (fun p => p.name == port) = some p →
        (p.parse value = none →
          injectPorts port value ps = .error .ValueParseError) ∧
        (∀ v, p.parse value = some v →
          ∃ pre post, ps = pre ++ p :: post ∧
            (∀ q ∈ pre, (q.name == port) = false) ∧
            injectPorts port value ps =
              .ok (pre ++ { p with bag := p.bag ++ [v] } :: post))) := by
  intro ps
  induction ps with
  | nil => exact ⟨fun _ => rfl, fun p h => by simp at h⟩
  | cons a rest ih =>
    by_cases ha : a.name = port
    · refine ⟨fun h => ?_, fun p hp => ?_⟩
      · rw [List.find?_cons_of_pos _ (by simp [ha])] at h
        exact absurd h (by simp)
      · rw [List.find?_cons_of_pos _ (by simp [ha])] at hp
        obtain rfl : a = p := by injection hp
        refine ⟨fun hn => ?_, fun v hv => ⟨[], rest, rfl, by simp, ?_⟩⟩
        · simp [injectPorts, ha, hn]
        · simp [injectPorts, ha, hv]
    · have hfind : (a :: rest).find? (fun p => p.name == port) =
          rest.find? (fun p => p.name == port) :=
        List.find?_cons_of_neg _ (by simp [ha])
      refine ⟨fun h => ?_, fun p hp => ?_⟩
      · rw [hfind] at h
        simp [injectPorts, ha, ih.1 h, exceptMapError]
      · rw [hfind] at hp
        refine ⟨fun hn => ?_, fun v hv => ?_⟩
        · simp [injectPorts, ha, (ih.2 p hp).1 hn, exceptMapError]
        · obtain ⟨pre, post, hps, hpre, hres⟩ := (ih.2 p hp).2 v hv
          exact ⟨a :: pre, post, by simp [hps],
            by simpa [ha] using hpre, by simp [injectPorts, ha, hres, exceptMapOk]⟩

/-- C7: `Component::inject` returns `Err(UnknownPort)` exactly when the
component has no input port with the given name; it returns
`Err(ValueParseError)` exactly when the port exists but the textual payload
does not parse to the port's element type; otherwise it appends the parsed
value to that port's bag and returns `Ok` (the three conditions partition
all inputs, so each conditional below is an "exactly when").  The real-time
input handler `inject_timeout` reports an injection error to its log and
continues with the component unchanged instead of aborting; on success it
continues with the updated component. -/
theorem inject_spec {V : Type} (c : RtComponent V) (port value : String) :
    (c.inPorts.find? (fun p => p.name == port) = none →
      c.inject port value = .error .UnknownPort) ∧
    (∀ p, c.inPorts.find? (fun p => p.name == port) = some p →
      (p.parse value = none → c.inject port value = .error .ValueParseError) ∧
      (∀ v, p.parse value = some v →
        ∃ pre post, c.inPorts = pre ++ p :: post ∧
          (∀ q ∈ pre, (q.name == port) = false) ∧
          c.inject port value =
            .ok ⟨pre ++ { p with bag := p.bag ++ [v] } :: post⟩)) ∧
    (∀ e, c.inject port value = .error e → injectTimeout c port value = c) ∧
    (∀ c1, c.inject port value = .ok c1 → injectTimeout c port value = c1) := by
  have H := injectPorts_cases port value c.inPorts
  refine ⟨fun h => ?_, fun p hp => ⟨fun hn => ?_, fun v hv => ?_⟩,
    fun e he => ?_, fun c1 hok => ?_⟩
  · simp [RtComponent.inject, H.1 h, exceptMapError]
  · simp [RtComponent.inject, (H.2 p hp).1 hn, exceptMapError]
  · obtain ⟨pre, post, hps, hpre, hres⟩ := (H.2 p hp).2 v hv
    exact ⟨pre, post, hps, hpre, by simp [RtComponent.inject, hres, exceptMapOk]⟩
  · simp [injectTimeout, he]
  · simp [injectTimeout, hok]

/-- Witness for `inject_spec`: a component with a single input port `a`
parsing only the string `5`; injection on an unknown port, an unparseable
payload, and a successful append, with the handler continuing in each
case. -/
theorem inject_spec_witness :
    RtComponent.inject (V := Nat)
        ⟨[⟨"a", fun s => if s = "5" then some 5 else none, [1]⟩]⟩ "zz" "5" =
      .error .UnknownPort ∧
    RtComponent.inject (V := Nat)
        ⟨[⟨"a", fun s => if s = "5" then some 5 else none, [1]⟩]⟩ "a" "bad" =
      .error .ValueParseError ∧
    injectTimeout (V := Nat)
        ⟨[⟨"a", fun s => if s = "5" then some 5 else none, [1]⟩]⟩ "zz" "5" =
      ⟨[⟨"a", fun s => if s = "5" then some 5 else none, [1]⟩]⟩ ∧
    injectTimeout (V := Nat)
        ⟨[⟨"a", fun s => if s = "5" then some 5 else none, [1]⟩]⟩ "a" "5" =
      ⟨[⟨"a", fun s => if s = "5" then some 5 else none, [1, 5]⟩]⟩ :=
  ⟨(inject_spec ⟨[⟨"a", fun s => if s = "5" then some 5 else none, [1]⟩]⟩
      "zz" "5").1 rfl,
   ((inject_spec ⟨[⟨"a", fun s => if s = "5" then some 5 else none, [1]⟩]⟩
      "a" "bad").2.1 ⟨"a", fun s => if s = "5" then some 5 else none, [1]⟩
      rfl).1 rfl,
   (inject_spec ⟨[⟨"a", fun s => if s = "5" then some 5 else none, [1]⟩]⟩
      "zz" "5").2.2.1 .UnknownPort rfl,
   (inject_spec ⟨[⟨"a", fun s => if s = "5" then some 5 else none, [1]⟩]⟩
      "a" "5").2.2.2 ⟨[⟨"a", fun s => if s = "5" then some 5 else none, [1, 5]⟩]⟩
      rfl⟩

/-- C10: for the `Processor` atomic model, `delta_ext` called while a job is
in progress leaves the job unchanged and only decrements `sigma` by the
elapsed time, discarding the arriving requests (the result does not depend
on the input bag at all); `delta_ext` called while idle accepts exactly the
first value of the `input_req` bag and sets `sigma` to the processing time;
`delta_ext` called while idle with an empty input bag panics (`none`), and
that panic is unreachable under the scheduler's precondition that
`delta_ext` runs only when some input port is non-empty (the processor has a
single input port, so a non-empty port set means a non-empty bag); `lambda`
emits a `Job` exactly when a job is present. -/
theorem processor_spec (s : ProcessorState) (e : DTime) (bag : List Nat) :
    (∀ j, s.job = some j →
      processorDeltaExt s e bag = some { s with sigma := DTime.sub s.sigma e }) ∧
    (s.job = none → ∀ v rest, bag = v :: rest →
      processorDeltaExt s e bag =
        some { s with job := some v, sigma := .fin s.time }) ∧
    (s.job = none → bag = [] → processorDeltaExt s e bag = none) ∧
    (bag ≠ [] → (processorDeltaExt s e bag).isSome = true) ∧
    (allEmpty [bag] = false → bag ≠ []) ∧
    (s.job = none → processorLambda s = []) ∧
    (∀ j, s.job = some j → processorLambda s = [⟨j, s.time⟩]) := by
  refine ⟨fun j hj => ?_, fun hj v rest hb => ?_, fun hj hb => ?_, fun hb => ?_,
    fun h => ?_, fun hj => ?_, fun j hj => ?_⟩
  · simp [processorDeltaExt, hj]
  · subst hb
    simp [processorDeltaExt, hj]
  · subst hb
    simp [processorDeltaExt, hj]
  · cases hj : s.job with
    | some j => simp [processorDeltaExt, hj]
    | none =>
      cases bag with
      | nil => exact absurd rfl hb
      | cons v rest => simp [processorDeltaExt, hj]
  · intro hbnil
    subst hbnil
    simp [allEmpty] at h
  · simp [processorLambda, hj]
  · simp [processorLambda, hj]

/-- Witness for `processor_spec`: a busy processor (job 7, 2 time units
left) receiving a request, an idle processor receiving request 4, an idle
processor with an empty bag, and both `lambda` cases. -/
theorem processor_spec_witness :
    processorDeltaExt ⟨.fin 5, 3, some 7⟩ (.fin 2) [9] =
      some ⟨DTime.sub (.fin 5) (.fin 2), 3, some 7⟩ ∧
    processorDeltaExt ⟨.inf, 3, none⟩ (.fin 2) [4] = some ⟨.fin 3, 3, some 4⟩ ∧
    processorDeltaExt ⟨.inf, 3, none⟩ (.fin 2) [] = none ∧
    (processorDeltaExt ⟨.inf, 3, none⟩ (.fin 2) [4]).isSome = true ∧
    ([4] : List Nat) ≠ [] ∧
    processorLambda ⟨.inf, 3, none⟩ = [] ∧
    processorLambda ⟨.fin 1, 3, some 7⟩ = [⟨7, 3⟩] :=
  ⟨(processor_spec ⟨.fin 5, 3, some 7⟩ (.fin 2) [9]).1 7 rfl,
   (processor_spec ⟨.inf, 3, none⟩ (.fin 2) [4]).2.1 rfl 4 [] rfl,
   (processor_spec ⟨.inf, 3, none⟩ (.fin 2) []).2.2.1 rfl rfl,
   (processor_spec ⟨.inf, 3, none⟩ (.fin 2) [4]).2.2.2.1 (by decide),
   (processor_spec ⟨.inf, 3, none⟩ (.fin 2) [4]).2.2.2.2.1 (by decide),
   (processor_spec ⟨.inf, 3, none⟩ (.fin 2) [4]).2.2.2.2.2.1 rfl,
   (processor_spec ⟨.fin 1, 3, some 7⟩ (.fin 2) [4]).2.2.2.2.2.2 7 rfl⟩

/-! Counting lemmas for the DEVStone LI tree. -/

theorem countAtomics_liAux (w : Nat) :
    ∀ k f, k + 2 ≤ f → countAtomics f (liAux w k) = (w - 1) * k + 1 := by
  intro k
  induction k with
  | zero =>
    intro f hf
    obtain ⟨g, rfl⟩ : ∃ g, f = g + 2 := ⟨f - 2, by omega⟩
    simp [liAux, countAtomics, dsAtomicInit]
  | succ k ih =>
    intro f hf
    obtain ⟨g, rfl⟩ : ∃ g, f = g + 1 := ⟨f - 1, by omega⟩
    simp only [liAux, countAtomics, List.map_cons, List.sum_cons,
      List.map_replicate]
    rw [ih g (by omega)]
    have hds : countAtomics g dsAtomicInit = 1 := by
      obtain ⟨g2, rfl⟩ : ∃ g2, g = g2 + 1 := ⟨g - 1, by omega⟩
      rfl
    rw [hds, List.sum_replicate, smul_eq_mul, Nat.mul_one, Nat.mul_succ]
    ring

theorem countEics_liAux (w : Nat) (hw : 1 ≤ w) :
    ∀ k f, k + 2 ≤ f → countEics f (liAux w k) = w * k + 1 := by
  intro k
  induction k with
  | zero =>
    intro f hf
    obtain ⟨g, rfl⟩ : ∃ g, f = g + 2 := ⟨f - 2, by omega⟩
    simp [liAux, countEics, dsAtomicInit]
  | succ k ih =>
    intro f hf
    obtain ⟨g, rfl⟩ : ∃ g, f = g + 1 := ⟨f - 1, by omega⟩
    simp only [liAux, countEics, List.map_cons, List.sum_cons,
      List.map_replicate, List.length_cons, List.length_map, List.length_range]
    rw [ih g (by omega)]
    have hds : countEics g dsAtomicInit = 0 := by
      obtain ⟨g2, rfl⟩ : ∃ g2, g = g2 + 1 := ⟨g - 1, by omega⟩
      rfl
    rw [hds, List.sum_replicate, smul_eq_mul, Nat.mul_zero]
    have hw1 : w - 1 + 1 = w := by omega
    rw [hw1, Nat.mul_succ]
    ring

theorem countIcs_liAux (w : Nat) :
    ∀ k f, k + 2 ≤ f → countIcs f (liAux w k) = 0 := by
  intro k
  induction k with
  | zero =>
    intro f hf
    obtain ⟨g, rfl⟩ : ∃ g, f = g + 2 := ⟨f - 2, by omega⟩
    simp [liAux, countIcs, dsAtomicInit]
  | succ k ih =>
    intro f hf
    obtain ⟨g, rfl⟩ : ∃ g, f = g + 1 := ⟨f - 1, by omega⟩
    simp only [liAux, countIcs, List.map_cons, List.sum_cons,
      List.map_replicate, List.length_nil]
    rw [ih g (by omega)]
    have hds : countIcs g dsAtomicInit = 0 := by
      obtain ⟨g2, rfl⟩ : ∃ g2, g = g2 + 1 := ⟨g - 1, by omega⟩
      rfl
    rw [hds, List.sum_replicate, smul_eq_mul, Nat.mul_zero]

theorem countEocs_liAux (w : Nat) :
    ∀ k f, k + 2 ≤ f → countEocs f (liAux w k) = k + 1 := by
  intro k
  induction k with
  | zero =>
    intro f hf
    obtain ⟨g, rfl⟩ : ∃ g, f = g + 2 := ⟨f - 2, by omega⟩
    simp [liAux, countEocs, dsAtomicInit]
  | succ k ih =>
    intro f hf
    obtain ⟨g, rfl⟩ : ∃ g, f = g + 1 := ⟨f - 1, by omega⟩
    simp only [liAux, countEocs, List.map_cons, List.sum_cons,
      List.map_replicate, List.length_cons, List.length_nil]
    rw [ih g (by omega)]
    have hds : countEocs g dsAtomicInit = 0 := by
      obtain ⟨g2, rfl⟩ : ∃ g2, g = g2 + 1 := ⟨g - 1, by omega⟩
      rfl
    rw [hds, List.sum_replicate, smul_eq_mul, Nat.mul_zero]
    omega

/-- C9: the recursively constructed LI tree for width `w >= 1` and depth
`d >= 1` contains `(w-1)(d-1)+1` atomics, `w(d-1)+1` external input
couplings, no internal coupling, and `d` external output couplings (counted
with fuel `d+1`, which exceeds the tree's height); and for `w = 5, d = 3`,
after a complete simulation of the seeder-driven model every DEVStone atomic
has performed exactly one internal and one external transition. -/
theorem devstone_li_spec (w d : Nat) (hw : 1 ≤ w) (hd : 1 ≤ d) :
    (countAtomics (d + 1) (liAux w (d - 1)) = (w - 1) * (d - 1) + 1 ∧
      countEics (d + 1) (liAux w (d - 1)) = w * (d - 1) + 1 ∧
      countIcs (d + 1) (liAux w (d - 1)) = 0 ∧
      countEocs (d + 1) (liAux w (d - 1)) = d) ∧
    collectCounts 8 (simulate DTime.ops 5 8 .inf (liCreate 5 3)) =
      List.replicate 9 (1, 1) := by
  constructor
  · refine ⟨countAtomics_liAux w (d - 1) (d + 1) (by omega),
      countEics_liAux w hw (d - 1) (d + 1) (by omega),
      countIcs_liAux w (d - 1) (d + 1) (by omega), ?_⟩
    rw [countEocs_liAux w (d - 1) (d + 1) (by omega)]
    omega
  · decide

/-- Witness for `devstone_li_spec`: the LI benchmark at width 5 and
depth 3 — 9 atomics, 11 EICs, 0 ICs, 3 EOCs, and the complete simulated
run. -/
theorem devstone_li_spec_witness :
    (countAtomics 4 (liAux 5 2) = 9 ∧
      countEics 4 (liAux 5 2) = 11 ∧
      countIcs 4 (liAux 5 2) = 0 ∧
      countEocs 4 (liAux 5 2) = 3) ∧
    collectCounts 8 (simulate DTime.ops 5 8 .inf (liCreate 5 3)) =
      List.replicate 9 (1, 1) :=
  devstone_li_spec 5 3 (by decide) (by decide)

end XDevs
